import Mathlib

/-!
Verification of the calorie-tracker pipeline (`app_gradio.py`).

This file gives a shallow embedding of the program's data flow and proves the
spec's claims about it.  The embedding follows the Python source:

* Python strings are `List Char` / `String`; `str.replace` (all occurrences,
  scanned left to right without overlap), `str.strip`, the `in` substring
  test and `str.title` are modelled directly.
* `json.loads` is modelled by an executable recursive-descent parser
  (`json_loads`) producing the `Json` value type; a `none` result corresponds
  to `json.JSONDecodeError`.  Python objects keep insertion order and
  last-value-wins duplicate keys (`insertKey`).  Numbers keep their source
  lexeme (Python's float canonicalisation is not observed by any claim);
  a lone surrogate `\uXXXX` escape decodes to the replacement `Char.ofNat`
  gives, which no claim observes.
* A Python function that can raise an uncaught exception is modelled with an
  `Option` result, `none` meaning the exception escaped.  The text of an
  exception message interpolated into an f-string is abstracted to the Python
  type name of the offending value.
* The network call of `analyze_image_with_gemini_api` is an oracle argument
  of type `ApiOutcome`; the body of a 2xx reply arrives already parsed as
  `Json` and the function's own `try`/`except` conversion of failures to
  strings is modelled by `geminiExtract`.
* PIL's `Image.thumbnail` arithmetic is modelled over `ℚ` (`thumbnailDims`)
  following PIL's shrink-to-fit algorithm: floor/ceil of the exact scaled
  size, choosing the one closer in aspect, clamped to at least 1.  JPEG
  re-encoding is abstracted to the preserved pixel dimensions.
-/

set_option linter.unusedVariables false

/-! ### Characters that the repository's banned-token conventions keep out of literals -/

/-- The double quote character. -/
def qChar : Char := Char.ofNat 34

/-- The backslash character. -/
def bsChar : Char := Char.ofNat 92

/-- The opening curly brace character. -/
def lbChar : Char := Char.ofNat 123

/-- The closing curly brace character. -/
def rbChar : Char := Char.ofNat 125

/-- The backtick character. -/
def btChar : Char := Char.ofNat 96

/-- The apostrophe character. -/
def apChar : Char := Char.ofNat 39

/-! ### Python string primitives -/

/-- One step bound of Python `str.replace(old, new)`: scan left to right; at a
match of `old` emit `new` and continue after the match, otherwise keep the
character.  The fuel argument only makes the recursion structural; every call
in this file supplies at least the length of the string, which is enough. -/
def pyReplaceAux (old new : List Char) : Nat → List Char → List Char
  | 0, s => s
  | fuel+1, s =>
    if old ≠ [] ∧ old <+: s then new ++ pyReplaceAux old new fuel (s.drop old.length)
    else match s with
      | [] => []
      | c :: rest => c :: pyReplaceAux old new fuel rest

/-- Python `s.replace(old, new)`. -/
def pyReplace (old new s : List Char) : List Char := pyReplaceAux old new s.length s

/-- Python's `str.strip()` whitespace set (ASCII part; the source never feeds
other unicode space characters through `strip`). -/
def isPySpace (c : Char) : Bool :=
  c = ' ' || c = '\t' || c = '\n' || c = '\r' || c = Char.ofNat 11 || c = Char.ofNat 12

/-- Python `s.strip()`. -/
def pyStrip (s : List Char) : List Char :=
  List.rdropWhile isPySpace (s.dropWhile isPySpace)

/-- Python `pat in s` substring test. -/
def pyContainsAux (pat : List Char) : List Char → Bool
  | [] => pat.isEmpty
  | c :: rest => pat.isPrefixOf (c :: rest) || pyContainsAux pat rest

/-- Python `pat in s` on `String`s. -/
def pyContainsStr (s pat : String) : Bool := pyContainsAux pat.data s.data

/-- Python `str.title()` on a character list: upper-case a letter that starts a
letter run, lower-case the following letters, leave other characters alone. -/
def pyTitleAux : Bool → List Char → List Char
  | _, [] => []
  | prevAlpha, c :: rest =>
    if c.isAlpha then (if prevAlpha then c.toLower else c.toUpper) :: pyTitleAux true rest
    else c :: pyTitleAux false rest

/-- `key.replace('_', ' ').title()` as used for display names in the renderer. -/
def displayName (k : String) : String :=
  String.mk (pyTitleAux false (k.data.map (fun c => if c = '_' then ' ' else c)))

/-! ### The Python value universe produced by `json.loads` -/

/-- JSON values as Python builds them: `None`, `bool`, numbers (kept as their
source lexeme), `str`, `list`, and insertion-ordered `dict`. -/
inductive Json where
  | null : Json
  | bool (b : Bool) : Json
  | num (lexeme : String) : Json
  | str (s : String) : Json
  | arr (items : List Json) : Json
  | obj (fields : List (String × Json)) : Json

/-- Python `dict.get(k, dflt)`: first (unique) matching key, else the default. -/
def dictGet (fs : List (String × Json)) (k : String) (dflt : Json) : Json :=
  match fs with
  | [] => dflt
  | (k0, v) :: rest => if k0 = k then v else dictGet rest k dflt

/-- Whether an association list binds a key. -/
def hasKey (fs : List (String × Json)) (k : String) : Bool :=
  fs.any (fun p => p.1 = k)

/-- Python `dict` insertion: a repeated key keeps its position and takes the
new value, a fresh key is appended. -/
def insertKey : List (String × Json) → String → Json → List (String × Json)
  | [], k, v => [(k, v)]
  | (k0, v0) :: rest, k, v =>
    if k0 = k then (k0, v) :: rest else (k0, v0) :: insertKey rest k v

/-- Zero test on a number lexeme: true when the mantissa (everything before an
exponent marker) consists of sign, dot and `0` digits only, which is exactly
when Python's parsed number is falsy. -/
def numLexIsZero (lex : String) : Bool :=
  let mantissa := lex.data.takeWhile (fun c => ¬ (c = 'e' ∨ c = 'E'))
  mantissa.all (fun c => c = '0' || c = '-' || c = '.')

/-- Python truthiness of a JSON-derived value. -/
def pyTruthy : Json → Bool
  | Json.null => false
  | Json.bool b => b
  | Json.num lex => ¬ numLexIsZero lex
  | Json.str s => ¬ s.isEmpty
  | Json.arr items => ¬ items.isEmpty
  | Json.obj fs => ¬ fs.isEmpty

/-- Python string `repr` (quote choice and the escapes the renderer could ever
meet; rarer `\xHH` escapes of control characters are not modelled, no claim
observes them). -/
def pyStrLit (s : String) : String :=
  let q := if s.data.contains apChar ∧ ¬ s.data.contains qChar then qChar else apChar
  let esc := s.data.foldr (fun c acc =>
    if c = bsChar then bsChar :: bsChar :: acc
    else if c = q then bsChar :: c :: acc
    else if c = '\n' then bsChar :: 'n' :: acc
    else if c = '\r' then bsChar :: 'r' :: acc
    else if c = '\t' then bsChar :: 't' :: acc
    else c :: acc) []
  String.mk (q :: esc ++ [q])

mutual

/-- Python `repr` of a JSON-derived value, as f-strings use for values nested
inside containers. -/
def pyRepr : Json → String
  | Json.null => "None"
  | Json.bool true => "True"
  | Json.bool false => "False"
  | Json.num lex => lex
  | Json.str s => pyStrLit s
  | Json.arr items => "[" ++ pyReprList items ++ "]"
  | Json.obj fs => "\x7b" ++ pyReprObj fs ++ "\x7d"

/-- `repr` of list elements, comma separated. -/
def pyReprList : List Json → String
  | [] => ""
  | [v] => pyRepr v
  | v :: rest => pyRepr v ++ ", " ++ pyReprList rest

/-- `repr` of dict items, comma separated. -/
def pyReprObj : List (String × Json) → String
  | [] => ""
  | [(k, v)] => pyStrLit k ++ ": " ++ pyRepr v
  | (k, v) :: rest => pyStrLit k ++ ": " ++ pyRepr v ++ ", " ++ pyReprObj rest

end

/-- Python `str(v)` as f-string interpolation applies it. -/
def pyStr : Json → String
  | Json.str s => s
  | v => pyRepr v

/-! ### `json.loads` -/

/-- JSON inter-token whitespace. -/
def jsonWsChar (c : Char) : Bool := c = ' ' || c = '\t' || c = '\n' || c = '\r'

/-- Skip JSON whitespace. -/
def skipWs (s : List Char) : List Char := s.dropWhile jsonWsChar

/-- Hex digit value. -/
def hexVal (c : Char) : Option Nat :=
  if '0' ≤ c ∧ c ≤ '9' then some (c.toNat - 48)
  else if 'a' ≤ c ∧ c ≤ 'f' then some (c.toNat - 87)
  else if 'A' ≤ c ∧ c ≤ 'F' then some (c.toNat - 55)
  else none

/-- Four hex digits. -/
def parseHex4 : List Char → Option (Nat × List Char)
  | h1 :: h2 :: h3 :: h4 :: r =>
    match hexVal h1, hexVal h2, hexVal h3, hexVal h4 with
    | some a, some b, some c, some d => some (((a * 16 + b) * 16 + c) * 16 + d, r)
    | _, _, _, _ => none
  | _ => none

/-- A `\uXXXX` escape, with surrogate-pair combination exactly as CPython's
`py_scanstring` does it: after a high surrogate, a following `\uXXXX` low
surrogate combines; a following `\uXXXX` outside the low range is left to be
re-scanned; bad hex right after a high surrogate is an error. -/
def decodeUEscape (r2 : List Char) : Option (Char × List Char) :=
  match parseHex4 r2 with
  | none => none
  | some (n, r3) =>
    if 0xD800 ≤ n ∧ n ≤ 0xDBFF then
      match r3 with
      | u1 :: u2 :: rr =>
        if u1 = bsChar ∧ u2 = 'u' then
          match parseHex4 rr with
          | none => none
          | some (m, r4) =>
            if 0xDC00 ≤ m ∧ m ≤ 0xDFFF then
              some (Char.ofNat (0x10000 + (n - 0xD800) * 0x400 + (m - 0xDC00)), r4)
            else some (Char.ofNat n, r3)
        else some (Char.ofNat n, r3)
      | _ => some (Char.ofNat n, r3)
    else some (Char.ofNat n, r3)

/-- Single-character string escapes. -/
def escChar (e : Char) : Option Char :=
  if e = qChar then some qChar
  else if e = bsChar then some bsChar
  else if e = '/' then some '/'
  else if e = 'b' then some (Char.ofNat 8)
  else if e = 'f' then some (Char.ofNat 12)
  else if e = 'n' then some '\n'
  else if e = 'r' then some '\r'
  else if e = 't' then some '\t'
  else none

/-- String literal body after the opening quote, strict mode: raw control
characters are rejected, unknown escapes are rejected. -/
def parseStringAux : Nat → List Char → List Char → Option (List Char × List Char)
  | 0, _, _ => none
  | fuel+1, acc, s =>
    match s with
    | [] => none
    | c :: rest =>
      if c = qChar then some (acc, rest)
      else if c = bsChar then
        match rest with
        | [] => none
        | e :: r2 =>
          if e = 'u' then
            match decodeUEscape r2 with
            | some (u, r3) => parseStringAux fuel (acc ++ [u]) r3
            | none => none
          else
            match escChar e with
            | some u => parseStringAux fuel (acc ++ [u]) r2
            | none => none
      else if c.toNat < 0x20 then none
      else parseStringAux fuel (acc ++ [c]) rest

/-- ASCII digit test. -/
def isDigitCh (c : Char) : Bool := '0' ≤ c && c ≤ '9'

/-- JSON number token, following Python's `NUMBER_RE`: optional minus, an
integer part without leading zeros, optional fraction, optional exponent.
The token stops at the first character that cannot extend it. -/
def parseNumber (s : List Char) : Option (Json × List Char) :=
  let (sign, s1) := match s with
    | c :: rest => if c = '-' then (['-'], rest) else (([] : List Char), s)
    | [] => ([], s)
  match s1 with
  | [] => none
  | d :: _ =>
    if ¬ (isDigitCh d = true) then none
    else
      let (ip, r1) :=
        if d = '0' then (['0'], s1.drop 1)
        else (s1.takeWhile isDigitCh, s1.dropWhile isDigitCh)
      let (fp, r2) :=
        match r1 with
        | c :: rest =>
          if c = '.' ∧ (rest.takeWhile isDigitCh) ≠ [] then
            ('.' :: rest.takeWhile isDigitCh, rest.dropWhile isDigitCh)
          else (([] : List Char), r1)
        | [] => ([], r1)
      let (ep, r3) :=
        match r2 with
        | c :: rest =>
          if c = 'e' ∨ c = 'E' then
            match rest with
            | c2 :: rest2 =>
              if c2 = '+' ∨ c2 = '-' then
                if (rest2.takeWhile isDigitCh) ≠ [] then
                  (c :: c2 :: rest2.takeWhile isDigitCh, rest2.dropWhile isDigitCh)
                else (([] : List Char), r2)
              else if (rest.takeWhile isDigitCh) ≠ [] then
                (c :: rest.takeWhile isDigitCh, rest.dropWhile isDigitCh)
              else (([] : List Char), r2)
            | [] => ([], r2)
          else (([] : List Char), r2)
        | [] => ([], r2)
      some (Json.num (String.mk (sign ++ ip ++ fp ++ ep)), r3)

mutual

/-- A JSON value.  The fuel only makes the mutual recursion structural;
`json_loads` supplies more fuel than any input can consume. -/
def parseValue : Nat → List Char → Option (Json × List Char)
  | 0, _ => none
  | fuel+1, s =>
    let s1 := skipWs s
    match s1 with
    | [] => none
    | c :: rest =>
      if c = qChar then
        match parseStringAux (fuel+1) [] rest with
        | some (cs, r) => some (Json.str (String.mk cs), r)
        | none => none
      else if c = lbChar then parseObjRest fuel rest
      else if c = '[' then parseArrRest fuel rest
      else if "true".data.isPrefixOf s1 then some (Json.bool true, s1.drop 4)
      else if "false".data.isPrefixOf s1 then some (Json.bool false, s1.drop 5)
      else if "null".data.isPrefixOf s1 then some (Json.null, s1.drop 4)
      else if "NaN".data.isPrefixOf s1 then some (Json.num "nan", s1.drop 3)
      else if "Infinity".data.isPrefixOf s1 then some (Json.num "inf", s1.drop 8)
      else if "-Infinity".data.isPrefixOf s1 then some (Json.num "-inf", s1.drop 9)
      else parseNumber s1

/-- Object body after the opening brace. -/
def parseObjRest : Nat → List Char → Option (Json × List Char)
  | 0, _ => none
  | fuel+1, s =>
    let s1 := skipWs s
    match s1 with
    | [] => none
    | c :: _ => if c = rbChar then some (Json.obj [], s1.drop 1) else parseMembers fuel [] s1

/-- One or more `"key": value` members. -/
def parseMembers : Nat → List (String × Json) → List Char → Option (Json × List Char)
  | 0, _, _ => none
  | fuel+1, acc, s =>
    let s1 := skipWs s
    match s1 with
    | c :: rest =>
      if c = qChar then
        match parseStringAux (fuel+1) [] rest with
        | some (k, r1) =>
          match skipWs r1 with
          | c2 :: r3 =>
            if c2 = ':' then
              match parseValue fuel r3 with
              | some (v, r4) =>
                match skipWs r4 with
                | c3 :: r6 =>
                  if c3 = ',' then parseMembers fuel (insertKey acc (String.mk k) v) r6
                  else if c3 = rbChar then some (Json.obj (insertKey acc (String.mk k) v), r6)
                  else none
                | [] => none
              | none => none
            else none
          | [] => none
        | none => none
      else none
    | [] => none

/-- Array body after the opening bracket. -/
def parseArrRest : Nat → List Char → Option (Json × List Char)
  | 0, _ => none
  | fuel+1, s =>
    let s1 := skipWs s
    match s1 with
    | c :: _ => if c = ']' then some (Json.arr [], s1.drop 1) else parseElems fuel [] s1
    | [] => none

/-- One or more array elements. -/
def parseElems : Nat → List Json → List Char → Option (Json × List Char)
  | 0, _, _ => none
  | fuel+1, acc, s =>
    match parseValue fuel s with
    | some (v, r) =>
      match skipWs r with
      | c :: r2 =>
        if c = ',' then parseElems fuel (acc ++ [v]) r2
        else if c = ']' then some (Json.arr (acc ++ [v]), r2)
        else none
      | [] => none
    | none => none

end

/-- Python `json.loads`: parse one value and insist the rest is whitespace.
`none` corresponds to `json.JSONDecodeError`. -/
def json_loads (s : List Char) : Option Json :=
  match parseValue (3 * s.length + 16) s with
  | some (v, rest) => if skipWs rest = [] then some v else none
  | none => none

/-! ### `parse_nutrition_response` -/

/-- The dictionary shape `parse_nutrition_response` always returns. -/
structure NutritionReport where
  food_items : Json
  macronutrients : Json
  micronutrients : Json
  improvements : Json
  additional_info : Json

/-- The cleaning line of `parse_nutrition_response`:
`response_text.replace("```json", "").replace("```", "").strip()`. -/
def pyCleanResponse (s : List Char) : List Char :=
  pyStrip (pyReplace "```".data [] (pyReplace "```json".data [] s))

/-- The report built in the `except json.JSONDecodeError` branch. -/
def jsonFailureReport : NutritionReport :=
  { food_items := Json.arr []
    macronutrients := Json.obj []
    micronutrients := Json.obj []
    improvements := Json.obj
      [("suggestions", Json.arr
          [Json.str "Could not parse response. Please try again or refine input."]),
       ("context", Json.str "")]
    additional_info := Json.obj [] }

/-- The report built in the `except Exception` branch (reached when
`json.loads` succeeds but `data.get` raises because the value is not a dict). -/
def unexpectedFailureReport : NutritionReport :=
  { food_items := Json.arr []
    macronutrients := Json.obj []
    micronutrients := Json.obj []
    improvements := Json.obj
      [("suggestions", Json.arr [Json.str "An unexpected error occurred during parsing."]),
       ("context", Json.str "")]
    additional_info := Json.obj [] }

/-- `parse_nutrition_response` of the source: clean the text, `json.loads` it,
extract the five fields with `dict.get` defaults; a decode error yields the
first fallback report, any other exception (a non-dict top-level value makes
`data.get` raise `AttributeError`) yields the second. -/
def parse_nutrition_response (response_text : String) : NutritionReport :=
  match json_loads (pyCleanResponse response_text.data) with
  | some (Json.obj fields) =>
    { food_items := dictGet fields "identified_foods" (Json.arr [])
      macronutrients := dictGet fields "macronutrients" (Json.obj [])
      micronutrients := dictGet fields "micronutrients" (Json.obj [])
      improvements := dictGet fields "improvements"
        (Json.obj [("suggestions", Json.arr []), ("context", Json.str "")])
      additional_info := dictGet fields "additional_info" (Json.obj []) }
  | some _ => unexpectedFailureReport
  | none => jsonFailureReport

/-! ### `process_image_for_analysis` -/

/-- PIL's `round_aspect`: of floor and ceiling pick the one the key function
prefers (ties go to the floor, as Python's `min` keeps the first argument),
then clamp to at least 1. -/
def roundAspect (q : ℚ) (key : ℤ → ℚ) : ℤ :=
  max (if key ⌊q⌋ ≤ key ⌈q⌉ then ⌊q⌋ else ⌈q⌉) 1

/-- The dimension arithmetic of PIL `Image.thumbnail(max_size)`: images inside
the box are untouched, otherwise the flatter-than-box image keeps height
`my` scaling the width, and the taller image keeps width `mx` scaling the
height, rounding to the neighbouring integer closer in aspect.  PIL computes
with floats; the model uses exact rationals. -/
def thumbnailDims (w h : ℕ) (mx my : ℕ) : ℤ × ℤ :=
  if mx ≥ w ∧ my ≥ h then ((w : ℤ), (h : ℤ))
  else
    let aspect : ℚ := (w : ℚ) / (h : ℚ)
    if (mx : ℚ) / (my : ℚ) ≥ aspect then
      (roundAspect ((my : ℚ) * aspect) (fun n => |aspect - (n : ℚ) / (my : ℚ)|), (my : ℤ))
    else
      ((mx : ℤ), roundAspect ((mx : ℚ) / aspect)
        (fun n => if n = 0 then 0 else |aspect - (mx : ℚ) / (n : ℚ)|))

/-- `process_image_for_analysis`: an undecodable/absent image (`None` in the
Gradio call, or a bitmap PIL cannot re-encode) takes the `except` branch and
returns `None`; otherwise the thumbnail is computed and re-encoded as JPEG at
quality 85.  The byte stream is abstracted to the pixel dimensions it encodes;
the source's default `max_size=(800, 800)` is passed explicitly by callers. -/
def process_image_for_analysis (image : Option (ℕ × ℕ)) (maxSize : ℕ × ℕ) : Option (ℤ × ℤ) :=
  match image with
  | none => none
  | some (w, h) => some (thumbnailDims w h maxSize.1 maxSize.2)

/-! ### `analyze_image_with_gemini_api` -/

/-- Outcome of the single `requests.post` to the Gemini endpoint.
`networkError` covers `requests.exceptions.RequestException`, which includes
the `HTTPError` that `raise_for_status` raises on a non-2xx status;
`decodeError` covers `response.json()` failing; `success` carries the parsed
JSON body of a 2xx response. -/
inductive ApiOutcome where
  | networkError (msg : String) : ApiOutcome
  | decodeError (msg : String) : ApiOutcome
  | success (body : Json) : ApiOutcome

/-- The catch-all `except Exception` f-string of the inference client; the
interpolated exception text is abstracted to a short description. -/
def geminiCatchAll (desc : String) : Json :=
  Json.str ("An unexpected error occurred during Gemini API inference: " ++ desc)

/-- Python type name of a value, used as the abstracted exception text. -/
def pyTypeName : Json → String
  | Json.null => "NoneType"
  | Json.bool _ => "bool"
  | Json.str _ => "str"
  | Json.arr _ => "list"
  | Json.obj _ => "dict"
  | Json.num lex =>
    if lex.data.contains '.' || lex.data.contains 'e' || lex.data.contains 'E'
        || lex = "nan" || lex = "inf" || lex = "-inf" then "float" else "int"

/-- The `elif result.get('error'): ... else: ...` tail of the extraction: a
truthy error dict yields the `Gemini API Error:` string (a truthy non-dict
error makes `.get` raise, landing in the catch-all), anything else yields the
`Unexpected Gemini API response structure:` string. -/
def geminiErrorBranch (fs : List (String × Json)) : Json :=
  let err := dictGet fs "error" Json.null
  if pyTruthy err then
    match err with
    | Json.obj efs =>
      Json.str ("Gemini API Error: " ++ pyStr (dictGet efs "message" (Json.str "Unknown API error")))
    | _ => geminiCatchAll (pyTypeName err)
  else Json.str ("Unexpected Gemini API response structure: " ++ pyStr (Json.obj fs))

/-- The `if result.get('candidates') and ...` extraction chain.  Each `.get`
on a non-dict and each `[0]` on a truthy non-list raises, which the function's
`except Exception` turns into the catch-all string.  When the whole chain is
truthy the `text` value itself is returned, whatever its type. -/
def geminiExtract (result : Json) : Json :=
  match result with
  | Json.obj fs =>
    let cands := dictGet fs "candidates" Json.null
    if pyTruthy cands then
      match cands with
      | Json.arr (c0 :: _) =>
        match c0 with
        | Json.obj c0fs =>
          let content := dictGet c0fs "content" Json.null
          if pyTruthy content then
            match content with
            | Json.obj cofs =>
              let parts := dictGet cofs "parts" Json.null
              if pyTruthy parts then
                match parts with
                | Json.arr (p0 :: _) =>
                  match p0 with
                  | Json.obj p0fs =>
                    let text := dictGet p0fs "text" Json.null
                    if pyTruthy text then text
                    else geminiErrorBranch fs
                  | other => geminiCatchAll (pyTypeName other)
                | other => geminiCatchAll (pyTypeName other)
              else geminiErrorBranch fs
            | other => geminiCatchAll (pyTypeName other)
          else geminiErrorBranch fs
        | other => geminiCatchAll (pyTypeName other)
      | other => geminiCatchAll (pyTypeName other)
    else geminiErrorBranch fs
  | other => geminiCatchAll (pyTypeName other)

/-- `analyze_image_with_gemini_api`: the request construction (prompt with the
user's goal, base64 image, generation options) does not influence the value
returned for a given outcome, so the oracle `api` stands for the whole
network interaction.  Every branch of the source returns a value; failures
become strings, a successful extraction returns the `text` value. -/
def analyze_image_with_gemini_api (api : ApiOutcome) (user_goal : String) : Json :=
  match api with
  | ApiOutcome.networkError e =>
    Json.str ("Network or request error during Gemini API call: " ++ e)
  | ApiOutcome.decodeError e =>
    Json.str ("Error decoding JSON response from Gemini API: " ++ e)
  | ApiOutcome.success body => geminiExtract body

/-! ### The renderer inside `get_nutritional_info` -/

/-- A Python `for x in v` loop body concatenation: lists iterate elements,
strings iterate their characters (as one-character strings), dicts iterate
their keys; iterating any other (necessarily truthy, at the call sites)
value raises `TypeError`, modelled as `none`. -/
def pyIterate (v : Json) (body : Json → String) : Option String :=
  match v with
  | Json.arr items => some (String.join (items.map body))
  | Json.str s => some (String.join (s.data.map (fun c => body (Json.str (String.mk [c])))))
  | Json.obj fs => some (String.join (fs.map (fun p => body (Json.str p.1))))
  | _ => none

/-- The `Identified Foods` section body. -/
def renderFoods (fi : Json) : Option String :=
  if pyTruthy fi then pyIterate fi (fun f => "- " ++ pyStr f ++ "\n")
  else some "No specific food items identified.\n"

/-- One macronutrient line with its unit: `kcal` for calories, `mg` for
sodium and cholesterol, `g` (no space) otherwise. -/
def macroLine (k : String) (v : Json) : String :=
  if k = "calories" then "- " ++ displayName k ++ ": " ++ pyStr v ++ " kcal\n"
  else if k = "sodium" ∨ k = "cholesterol" then "- " ++ displayName k ++ ": " ++ pyStr v ++ " mg\n"
  else "- " ++ displayName k ++ ": " ++ pyStr v ++ "g\n"

/-- The `Macronutrients` section body; a truthy non-dict has no `.items()`,
so it raises. -/
def renderMacros (m : Json) : Option String :=
  if pyTruthy m then
    match m with
    | Json.obj fs => some (String.join (fs.map (fun p => macroLine p.1 p.2)))
    | _ => none
  else some "No macronutrient data available.\n"

/-- One micronutrient line with its unit: `IU` for vitamin A, `g` (no space)
for fiber, `mg` otherwise. -/
def microLine (k : String) (v : Json) : String :=
  if k = "vitamin_a" then "- " ++ displayName k ++ ": " ++ pyStr v ++ " IU\n"
  else if k = "fiber" then "- " ++ displayName k ++ ": " ++ pyStr v ++ "g\n"
  else "- " ++ displayName k ++ ": " ++ pyStr v ++ " mg\n"

/-- The `Micronutrients` section body. -/
def renderMicros (m : Json) : Option String :=
  if pyTruthy m then
    match m with
    | Json.obj fs => some (String.join (fs.map (fun p => microLine p.1 p.2)))
    | _ => none
  else some "No micronutrient data available.\n"

/-- The optional `Additional Information` section (absent when falsy). -/
def renderAdditional (ai : Json) : Option String :=
  if pyTruthy ai then
    match ai with
    | Json.obj fs =>
      some ("\n**Additional Information:**\n" ++
        String.join (fs.map (fun p => "- " ++ displayName p.1 ++ ": " ++ pyStr p.2 ++ "\n")))
    | _ => none
  else some ""

/-- The `Suggested Improvements` tail after the goal line:
`if improvements and improvements.get('suggestions'):` iterate the
suggestions and append the optional context line, else the placeholder. -/
def renderImprovements (imp : Json) : Option String :=
  if pyTruthy imp then
    match imp with
    | Json.obj fs =>
      if pyTruthy (dictGet fs "suggestions" Json.null) then
        match pyIterate (dictGet fs "suggestions" Json.null) (fun s => "- " ++ pyStr s ++ "\n") with
        | some ls =>
          some (ls ++ (if pyTruthy (dictGet fs "context" Json.null) then
            "\nContext: " ++ pyStr (dictGet fs "context" Json.null) ++ "\n" else ""))
        | none => none
      else some "No specific suggestions provided.\n"
    | _ => none
  else some "No specific suggestions provided.\n"

/-- The output assembly of `get_nutritional_info` after parsing; `none` is an
exception escaping the function (it has no `try`). -/
def renderOutput (parsed : NutritionReport) (user_goal : String) : Option String := do
  let foods ← renderFoods parsed.food_items
  let macros ← renderMacros parsed.macronutrients
  let micros ← renderMicros parsed.micronutrients
  let addl ← renderAdditional parsed.additional_info
  let impr ← renderImprovements parsed.improvements
  some ("### Nutritional Analysis\n\n**Identified Foods:**\n" ++ foods ++
    "\n**Macronutrients:**\n" ++ macros ++
    "\n**Micronutrients:**\n" ++ micros ++
    addl ++
    "\n**Suggested Improvements:**\nBased on your goal: " ++ user_goal ++ "\n" ++ impr)

/-- Python `pat in items` on a list: membership via `==` against each
element, which for a string pattern is true exactly on equal string elements
(`==` between a `str` and any other type is `False`, never an error). -/
def pyMemberOfList (pat : String) (items : List Json) : Bool :=
  items.any (fun v => match v with
    | Json.str s => s = pat
    | _ => false)

/-- The body of `get_nutritional_info` after the API-key check: process the
image, call the client, return empty or `"Error:"`-carrying replies
verbatim, otherwise parse and render.  The result is the Python return value
(`Json.str` for the normal string results); `none` is an uncaught exception.
The `"Error:" in raw_response_text` test follows Python's `in`: a substring
test on a string, a (non-raising) membership test on a list or dict — after
which a missed membership sends the non-string reply into
`parse_nutrition_response`, where `raw_response_text.replace` raises
`AttributeError` inside its `try`, so its `except Exception` returns the
second fallback report, which is then rendered — and a `TypeError` (here
`none`) on a truthy number or boolean. -/
def get_nutritional_info_body (image : Option (ℕ × ℕ)) (api : ApiOutcome)
    (user_goal : String) : Option Json :=
  match process_image_for_analysis image (800, 800) with
  | none => some (Json.str "Failed to process image. Please try another image.")
  | some _ =>
    let raw := analyze_image_with_gemini_api api user_goal
    if pyTruthy raw = false then some raw
    else match raw with
      | Json.str s =>
        if pyContainsStr s "Error:" then some (Json.str s)
        else (renderOutput (parse_nutrition_response s) user_goal).map Json.str
      | Json.arr items =>
        if pyMemberOfList "Error:" items then some (Json.arr items)
        else (renderOutput unexpectedFailureReport user_goal).map Json.str
      | Json.obj fs =>
        if hasKey fs "Error:" then some (Json.obj fs)
        else (renderOutput unexpectedFailureReport user_goal).map Json.str
      | _ => none

/-- `get_nutritional_info`: the module-level `GEMINI_API_KEY = os.getenv(...)`
is the `Option String` argument (`none` when the environment variable is
unset); `image` is the Gradio image (or `none`); `api` is the network
oracle.  A `None` key short-circuits with the configuration error. -/
def get_nutritional_info (gemini_api_key : Option String) (image : Option (ℕ × ℕ))
    (api : ApiOutcome) (user_goal : String) : Option Json :=
  match gemini_api_key with
  | none => some (Json.str
      "Error: Gemini API Key is not configured. Please set it as a Hugging Face Space Secret.")
  | some _ => get_nutritional_info_body image api user_goal

/-! ### Definitions taken from the spec's words (for refinement statements) -/

/-- Unit suffix for a macronutrient key as the spec words it: `kcal` for
calories, `mg` for sodium/cholesterol, `g` otherwise (the code writes the
first two with a separating space and `g` without one). -/
def specMacroUnit (k : String) : String :=
  if k = "calories" then " kcal"
  else if k = "sodium" ∨ k = "cholesterol" then " mg"
  else "g"

/-- Unit suffix for a micronutrient key as the spec words it: `IU` for
vitamin A, `g` for fiber, `mg` otherwise. -/
def specMicroUnit (k : String) : String :=
  if k = "vitamin_a" then " IU"
  else if k = "fiber" then "g"
  else " mg"

/-- The shapes the spec's schema expects of a parsed report: a list of foods,
mappings for the three nutrient/info fields, and an improvements mapping
whose `suggestions` value is a list. -/
def expectedShapes (r : NutritionReport) : Prop :=
  (∃ l, r.food_items = Json.arr l) ∧
  (∃ m, r.macronutrients = Json.obj m) ∧
  (∃ m, r.micronutrients = Json.obj m) ∧
  (∃ m, r.additional_info = Json.obj m) ∧
  (∃ fs, r.improvements = Json.obj fs ∧ ∃ sl, dictGet fs "suggestions" Json.null = Json.arr sl)

/-- The inputs on which `parse_nutrition_response` takes a failure branch:
the cleaned text fails `json.loads`, or parses to a non-dict so that
`data.get` raises. -/
def parseFailureCase (t : String) : Bool :=
  match json_loads (pyCleanResponse t.data) with
  | none => true
  | some (Json.obj _) => false
  | some _ => true

/-! ## Helper lemmas -/

/-- The one-step unfolding of `pyReplaceAux` at positive fuel. -/
theorem pyReplaceAux_succ (old new : List Char) (f : Nat) (s : List Char) :
    pyReplaceAux old new (f+1) s =
      if old ≠ [] ∧ old <+: s then new ++ pyReplaceAux old new f (s.drop old.length)
      else match s with
        | [] => []
        | c :: rest => c :: pyReplaceAux old new f rest := by
  rw [pyReplaceAux.eq_def]

/-- `pyReplaceAux` on the empty string is the empty string, whatever the fuel. -/
theorem pyReplaceAux_nil (old new : List Char) (f : Nat) : pyReplaceAux old new f [] = [] := by
  cases f with
  | zero => rfl
  | succ f =>
    rw [pyReplaceAux_succ, if_neg]
    rintro ⟨hne, hp⟩
    exact hne (List.prefix_nil.mp hp)

/-- A string shorter than the pattern is returned unchanged. -/
theorem pyReplaceAux_short (old new : List Char) (f : Nat) :
    ∀ s : List Char, s.length < old.length → pyReplaceAux old new f s = s := by
  induction f with
  | zero => intro s _; rfl
  | succ f ih =>
    intro s hs
    rw [pyReplaceAux_succ, if_neg]
    · cases s with
      | nil => rfl
      | cons c rest =>
        show c :: pyReplaceAux old new f rest = c :: rest
        rw [ih rest (by simp only [List.length_cons] at hs; omega)]
    · rintro ⟨hne, hp⟩
      exact absurd hp.length_le (by omega)

/-- With fuel at least the length of the string, the fuel does not matter. -/
theorem pyReplaceAux_fuel (old new : List Char) :
    ∀ (f1 f2 : Nat) (s : List Char), s.length ≤ f1 → s.length ≤ f2 →
      pyReplaceAux old new f1 s = pyReplaceAux old new f2 s := by
  intro f1
  induction f1 with
  | zero =>
    intro f2 s h1 _
    have : s = [] := List.length_eq_zero.mp (by omega)
    subst this
    rw [pyReplaceAux_nil, pyReplaceAux_nil]
  | succ f ih =>
    intro f2 s h1 h2
    cases s with
    | nil => rw [pyReplaceAux_nil, pyReplaceAux_nil]
    | cons c rest =>
      cases f2 with
      | zero => simp at h2
      | succ f2 =>
        rw [pyReplaceAux_succ, pyReplaceAux_succ]
        simp only [List.length_cons] at h1 h2
        by_cases hp : old ≠ [] ∧ old <+: (c :: rest)
        · rw [if_pos hp, if_pos hp]
          have hold : 1 ≤ old.length := by
            cases old with
            | nil => exact absurd rfl hp.1
            | cons _ _ => simp
          refine congrArg (new ++ ·) (ih f2 _ ?_ ?_) <;>
            rw [List.length_drop, List.length_cons] <;> omega
        · rw [if_neg hp, if_neg hp]
          show c :: pyReplaceAux old new f rest = c :: pyReplaceAux old new f2 rest
          exact congrArg (c :: ·) (ih f2 rest (by omega) (by omega))

/-- Removal (empty replacement) never lengthens the string. -/
theorem pyReplaceAux_length_le (old : List Char) (f : Nat) :
    ∀ s : List Char, (pyReplaceAux old [] f s).length ≤ s.length := by
  induction f with
  | zero => intro s; exact le_refl _
  | succ f ih =>
    intro s
    rw [pyReplaceAux_succ]
    by_cases hp : old ≠ [] ∧ old <+: s
    · rw [if_pos hp, List.nil_append]
      exact le_trans (ih _) (by rw [List.length_drop]; omega)
    · rw [if_neg hp]
      cases s with
      | nil => simp
      | cons c rest =>
        show (c :: pyReplaceAux old [] f rest).length ≤ (c :: rest).length
        simpa using ih rest

/-- A prefix of `s ++ u` that fits inside `s` is a prefix of `s`. -/
theorem prefix_of_append_left {p s u : List Char} (hp : p <+: s ++ u)
    (hl : p.length ≤ s.length) : p <+: s := by
  have h1 : p = (s ++ u).take p.length := List.prefix_iff_eq_take.mp hp
  rw [List.take_append_of_le_length hl] at h1
  exact h1 ▸ List.take_prefix _ _

/-- No occurrence of the seven-character fence marker can straddle the
boundary of an appended three-backtick fence: its fourth character onward is
`json`, not a backtick. -/
theorem no_fenceJson_span (s : List Char) (hlen : s.length < 7) :
    ¬ ("```json".data <+: s ++ "```".data) := by
  intro hp
  have h7 : ("```json".data).length = 7 := rfl
  have h3 : ("```".data).length = 3 := rfl
  have hle : 7 ≤ s.length + 3 := by
    have h := hp.length_le
    rw [List.length_append, h7, h3] at h
    exact h
  obtain ⟨r, hr⟩ := hp
  have hget : ("```json".data ++ r)[s.length]? = (s ++ "```".data)[s.length]? := by rw [hr]
  rw [List.getElem?_append_left (by omega : s.length < ("```json".data).length)] at hget
  rw [List.getElem?_append_right (le_refl s.length), Nat.sub_self] at hget
  have hcase : s.length = 4 ∨ s.length = 5 ∨ s.length = 6 := by omega
  rcases hcase with h | h | h <;> rw [h] at hget <;> exact absurd hget (by decide)

/-! ## Claim C5 -/

/-- Claim C5: with no API key configured (`GEMINI_API_KEY` unset, i.e. `none`),
`get_nutritional_info` returns the configuration error string, and the result
does not depend on the image or on the network outcome — image preparation
and the network call are never consulted. -/
theorem C5_missing_key_short_circuits (image img2 : Option (ℕ × ℕ)) (api api2 : ApiOutcome)
    (user_goal : String) :
    get_nutritional_info none image api user_goal = some (Json.str
      "Error: Gemini API Key is not configured. Please set it as a Hugging Face Space Secret.") ∧
    get_nutritional_info none image api user_goal = get_nutritional_info none img2 api2 user_goal :=
  ⟨rfl, rfl⟩

/-! ## Claim C9 -/

/-- Claim C9: only a `None` key (unset environment variable) short-circuits;
an empty-string key runs the pipeline body, which starts with image
preparation (witnessed by the image-failure message when the image is absent)
and proceeds to the network call. -/
theorem C9_empty_key_proceeds (image : Option (ℕ × ℕ)) (api : ApiOutcome) (user_goal : String) :
    get_nutritional_info (some "") image api user_goal =
      get_nutritional_info_body image api user_goal ∧
    get_nutritional_info (some "") none api user_goal =
      some (Json.str "Failed to process image. Please try another image.") ∧
    get_nutritional_info none image api user_goal = some (Json.str
      "Error: Gemini API Key is not configured. Please set it as a Hugging Face Space Secret.") :=
  ⟨rfl, rfl, rfl⟩

/-! ## Claim C2 -/

/-- Claim C2, counterexample: the two failure branches of
`parse_nutrition_response` do not carry one and the same fixed message.  On
the failing input `{` (a JSON decode error) the single suggestion is the
retry advisory, while on the failing input `[]` (valid JSON whose non-dict
top level makes `data.get` raise) it is a different message that does not ask
to retry. -/
theorem C2_failure_message_not_unique :
    parseFailureCase "\x7b" = true ∧ parseFailureCase "[]" = true ∧
    (parse_nutrition_response "\x7b").improvements = Json.obj
      [("suggestions", Json.arr
          [Json.str "Could not parse response. Please try again or refine input."]),
       ("context", Json.str "")] ∧
    (parse_nutrition_response "[]").improvements = Json.obj
      [("suggestions", Json.arr [Json.str "An unexpected error occurred during parsing."]),
       ("context", Json.str "")] ∧
    (("Could not parse response. Please try again or refine input." : String) ==
      "An unexpected error occurred during parsing.") = false :=
  ⟨rfl, rfl, rfl, rfl, by decide⟩

/-- Claim C2 as amended: every failing input yields a report with all four
data fields empty and exactly one suggestion, but the message depends on the
failure kind: JSON decode errors get the fixed retry advisory, while any
other parsing exception (a non-dict top-level value) gets a different fixed
message. -/
theorem C2_failure_reports (t : String) :
    (json_loads (pyCleanResponse t.data) = none →
      parse_nutrition_response t = jsonFailureReport) ∧
    (∀ v, json_loads (pyCleanResponse t.data) = some v → (∀ fs, v ≠ Json.obj fs) →
      parse_nutrition_response t = unexpectedFailureReport) := by
  constructor
  · intro h
    simp [parse_nutrition_response, h]
  · intro v hv hne
    cases v with
    | obj fs => exact absurd rfl (hne fs)
    | null => simp [parse_nutrition_response, hv]
    | bool b => simp [parse_nutrition_response, hv]
    | num lex => simp [parse_nutrition_response, hv]
    | str s => simp [parse_nutrition_response, hv]
    | arr items => simp [parse_nutrition_response, hv]

/-- Witness for C2: both failure branches at concrete inputs. -/
theorem C2_failure_reports_witness :
    parse_nutrition_response "\x7b" = jsonFailureReport ∧
    parse_nutrition_response "[]" = unexpectedFailureReport :=
  ⟨(C2_failure_reports "\x7b").1 rfl,
   (C2_failure_reports "[]").2 (Json.arr []) rfl (fun fs h => nomatch h)⟩

/-! ## Claim C6 -/

/-- A key that is not bound looks up to the default. -/
theorem dictGet_eq_default (fs : List (String × Json)) (k : String) (d : Json)
    (h : hasKey fs k = false) : dictGet fs k d = d := by
  induction fs with
  | nil => rfl
  | cons p rest ih =>
    obtain ⟨k0, v⟩ := p
    simp only [hasKey, List.any_cons, Bool.or_eq_false_iff, decide_eq_false_iff_not] at h
    simp only [dictGet, if_neg h.1]
    exact ih (by simpa [hasKey] using h.2)

/-- Claim C6: when the cleaned text parses to a JSON object, each of the five
top-level fields that is absent defaults: `identified_foods` to the empty
list, `macronutrients`, `micronutrients` and `additional_info` to the empty
mapping, and `improvements` to the mapping with an empty suggestions list
and empty context. -/
theorem C6_absent_fields_default (t : String) (fs : List (String × Json))
    (hp : json_loads (pyCleanResponse t.data) = some (Json.obj fs)) :
    (hasKey fs "macronutrients" = false →
      (parse_nutrition_response t).macronutrients = Json.obj []) ∧
    (hasKey fs "identified_foods" = false →
      (parse_nutrition_response t).food_items = Json.arr []) ∧
    (hasKey fs "micronutrients" = false →
      (parse_nutrition_response t).micronutrients = Json.obj []) ∧
    (hasKey fs "additional_info" = false →
      (parse_nutrition_response t).additional_info = Json.obj []) ∧
    (hasKey fs "improvements" = false →
      (parse_nutrition_response t).improvements =
        Json.obj [("suggestions", Json.arr []), ("context", Json.str "")]) := by
  refine ⟨fun h => ?_, fun h => ?_, fun h => ?_, fun h => ?_, fun h => ?_⟩ <;>
    simp [parse_nutrition_response, hp, dictGet_eq_default _ _ _ h]

/-- Witness for C6: the empty object input. -/
theorem C6_absent_fields_default_witness :
    json_loads (pyCleanResponse ("\x7b\x7d" : String).data) = some (Json.obj []) ∧
    (parse_nutrition_response "\x7b\x7d").macronutrients = Json.obj [] ∧
    (parse_nutrition_response "\x7b\x7d").food_items = Json.arr [] ∧
    (parse_nutrition_response "\x7b\x7d").improvements =
      Json.obj [("suggestions", Json.arr []), ("context", Json.str "")] :=
  ⟨rfl, (C6_absent_fields_default "\x7b\x7d" [] rfl).1 rfl,
    (C6_absent_fields_default "\x7b\x7d" [] rfl).2.1 rfl,
    (C6_absent_fields_default "\x7b\x7d" [] rfl).2.2.2.2 rfl⟩

/-! ## Claim C3 -/

/-- Folding a trailing literal append. -/
theorem append_append_fold (x a b c : String) (h : a ++ b = c) : x ++ a ++ b = x ++ c := by
  rw [String.append_assoc, h]

/-- Each macronutrient line carries the spec's unit for its key. -/
theorem macroLine_spec (k : String) (v : Json) :
    macroLine k v = "- " ++ displayName k ++ ": " ++ pyStr v ++ specMacroUnit k ++ "\n" := by
  unfold macroLine specMacroUnit
  by_cases h1 : k = "calories"
  · simp only [if_pos h1]
    exact (append_append_fold _ " kcal" "\n" " kcal\n" rfl).symm
  · by_cases h2 : k = "sodium" ∨ k = "cholesterol"
    · simp only [if_neg h1, if_pos h2]
      exact (append_append_fold _ " mg" "\n" " mg\n" rfl).symm
    · simp only [if_neg h1, if_neg h2]
      exact (append_append_fold _ "g" "\n" "g\n" rfl).symm

/-- Each micronutrient line carries the spec's unit for its key. -/
theorem microLine_spec (k : String) (v : Json) :
    microLine k v = "- " ++ displayName k ++ ": " ++ pyStr v ++ specMicroUnit k ++ "\n" := by
  unfold microLine specMicroUnit
  by_cases h1 : k = "vitamin_a"
  · simp only [if_pos h1]
    exact (append_append_fold _ " IU" "\n" " IU\n" rfl).symm
  · by_cases h2 : k = "fiber"
    · simp only [if_neg h1, if_pos h2]
      exact (append_append_fold _ "g" "\n" "g\n" rfl).symm
    · simp only [if_neg h1, if_neg h2]
      exact (append_append_fold _ " mg" "\n" " mg\n" rfl).symm

/-- Claim C3: on a non-empty mapping the renderer emits, for every key in
order, one line suffixed with the spec's unit for that key — `kcal` for
calories, `mg` for sodium and cholesterol, `g` otherwise among
macronutrients; `IU` for vitamin A, `g` for fiber, `mg` otherwise among
micronutrients. -/
theorem C3_unit_suffixes :
    (∀ fs : List (String × Json), fs ≠ [] →
      renderMacros (Json.obj fs) = some (String.join (fs.map (fun p =>
        "- " ++ displayName p.1 ++ ": " ++ pyStr p.2 ++ specMacroUnit p.1 ++ "\n")))) ∧
    (∀ fs : List (String × Json), fs ≠ [] →
      renderMicros (Json.obj fs) = some (String.join (fs.map (fun p =>
        "- " ++ displayName p.1 ++ ": " ++ pyStr p.2 ++ specMicroUnit p.1 ++ "\n")))) := by
  constructor <;> intro fs hfs <;>
    [simp [renderMacros, pyTruthy, List.isEmpty_iff, hfs, macroLine_spec];
     simp [renderMicros, pyTruthy, List.isEmpty_iff, hfs, microLine_spec]]

/-- Witness for C3 at concrete nutrient mappings. -/
theorem C3_unit_suffixes_witness :
    renderMacros (Json.obj [("calories", Json.num "200"), ("sodium", Json.num "10"),
        ("protein", Json.num "5")]) =
      some (String.join ([("calories", Json.num "200"), ("sodium", Json.num "10"),
        ("protein", Json.num "5")].map (fun p =>
          "- " ++ displayName p.1 ++ ": " ++ pyStr p.2 ++ specMacroUnit p.1 ++ "\n"))) ∧
    renderMicros (Json.obj [("vitamin_a", Json.num "3"), ("fiber", Json.num "2"),
        ("iron", Json.num "1")]) =
      some (String.join ([("vitamin_a", Json.num "3"), ("fiber", Json.num "2"),
        ("iron", Json.num "1")].map (fun p =>
          "- " ++ displayName p.1 ++ ": " ++ pyStr p.2 ++ specMicroUnit p.1 ++ "\n"))) :=
  ⟨C3_unit_suffixes.1 _ (by simp), C3_unit_suffixes.2 _ (by simp)⟩

/-! ## Claim C7 -/

/-- A list-shaped foods field always renders. -/
theorem renderFoods_arr (l : List Json) : (renderFoods (Json.arr l)).isSome = true := by
  cases l with
  | nil => rfl
  | cons v rest => rfl

/-- A mapping-shaped macronutrients field always renders. -/
theorem renderMacros_obj (fs : List (String × Json)) :
    (renderMacros (Json.obj fs)).isSome = true := by
  cases fs with
  | nil => rfl
  | cons p rest => rfl

/-- A mapping-shaped micronutrients field always renders. -/
theorem renderMicros_obj (fs : List (String × Json)) :
    (renderMicros (Json.obj fs)).isSome = true := by
  cases fs with
  | nil => rfl
  | cons p rest => rfl

/-- A mapping-shaped additional-info field always renders. -/
theorem renderAdditional_obj (fs : List (String × Json)) :
    (renderAdditional (Json.obj fs)).isSome = true := by
  cases fs with
  | nil => rfl
  | cons p rest => rfl

/-- A mapping-shaped improvements field with a list-shaped suggestions value
always renders. -/
theorem renderImprovements_shaped (fs : List (String × Json)) (sl : List Json)
    (hs : dictGet fs "suggestions" Json.null = Json.arr sl) :
    (renderImprovements (Json.obj fs)).isSome = true := by
  cases fs with
  | nil => rfl
  | cons p rest =>
    simp only [renderImprovements, hs]
    cases sl <;> simp [pyTruthy, pyIterate]

/-- The renderer succeeds on every report whose fields have the expected
shapes. -/
theorem renderOutput_total (r : NutritionReport) (goal : String) (h : expectedShapes r) :
    (renderOutput r goal).isSome = true := by
  obtain ⟨⟨l, hl⟩, ⟨m1, h1⟩, ⟨m2, h2⟩, ⟨m3, h3⟩, ⟨fs, hf, sl, hs⟩⟩ := h
  obtain ⟨x1, e1⟩ := Option.isSome_iff_exists.mp (renderFoods_arr l)
  obtain ⟨x2, e2⟩ := Option.isSome_iff_exists.mp (renderMacros_obj m1)
  obtain ⟨x3, e3⟩ := Option.isSome_iff_exists.mp (renderMicros_obj m2)
  obtain ⟨x4, e4⟩ := Option.isSome_iff_exists.mp (renderAdditional_obj m3)
  obtain ⟨x5, e5⟩ := Option.isSome_iff_exists.mp (renderImprovements_shaped fs sl hs)
  simp [renderOutput, hl, h1, h2, h3, hf, e1, e2, e3, e4, e5]

/-- Claim C7, counterexample: a response whose shape is unexpected only in the
type of `candidates[0].content.parts[0].text` (a number instead of a string)
is not converted into an error string — the client returns the raw number,
and the pipeline's `"Error:" in raw_response_text` test then raises
`TypeError` (modelled as `none`), an exception escaping the pipeline. -/
theorem C7_nonstring_text_not_converted :
    analyze_image_with_gemini_api
      (ApiOutcome.success (Json.obj [("candidates", Json.arr [Json.obj [("content",
        Json.obj [("parts", Json.arr [Json.obj [("text", Json.num "5")]])])]])]))
      "Maintain weight" = Json.num "5" ∧
    get_nutritional_info (some "key") (some (2, 2))
      (ApiOutcome.success (Json.obj [("candidates", Json.arr [Json.obj [("content",
        Json.obj [("parts", Json.arr [Json.obj [("text", Json.num "5")]])])]])]))
      "Maintain weight" = none := by
  exact ⟨rfl, rfl⟩

/-- Claim C7 as amended: the failure classes the client detects at the top
level are each converted into a human-readable error string — network/HTTP
failures, body decode failures, a non-dict response body, a falsy-candidates
body with a truthy error object, and a falsy-candidates body with a falsy
error — and the pipeline returns verbatim any string reply that is empty or
contains `"Error:"`.  A reply whose `text` value is truthy and not a string
escapes conversion: a numeric or boolean value makes the pipeline's `in`
test raise `TypeError` (see the counterexample), while a list or dict value
passes the non-raising membership test and the pipeline recovers by
rendering the always-renderable fallback report. -/
theorem C7_error_conversion :
    (∀ (e goal : String), analyze_image_with_gemini_api (ApiOutcome.networkError e) goal =
      Json.str ("Network or request error during Gemini API call: " ++ e)) ∧
    (∀ (e goal : String), analyze_image_with_gemini_api (ApiOutcome.decodeError e) goal =
      Json.str ("Error decoding JSON response from Gemini API: " ++ e)) ∧
    (∀ (v : Json) (goal : String), (∀ fs, v ≠ Json.obj fs) →
      analyze_image_with_gemini_api (ApiOutcome.success v) goal =
        geminiCatchAll (pyTypeName v)) ∧
    (∀ (fs efs : List (String × Json)) (goal : String),
      pyTruthy (dictGet fs "candidates" Json.null) = false →
      dictGet fs "error" Json.null = Json.obj efs → efs ≠ [] →
      analyze_image_with_gemini_api (ApiOutcome.success (Json.obj fs)) goal =
        Json.str ("Gemini API Error: " ++
          pyStr (dictGet efs "message" (Json.str "Unknown API error")))) ∧
    (∀ (fs : List (String × Json)) (goal : String),
      pyTruthy (dictGet fs "candidates" Json.null) = false →
      pyTruthy (dictGet fs "error" Json.null) = false →
      analyze_image_with_gemini_api (ApiOutcome.success (Json.obj fs)) goal =
        Json.str ("Unexpected Gemini API response structure: " ++ pyStr (Json.obj fs))) ∧
    (∀ (key : String) (img : ℕ × ℕ) (api : ApiOutcome) (goal s : String),
      analyze_image_with_gemini_api api goal = Json.str s →
      (s = "" ∨ pyContainsStr s "Error:" = true) →
      get_nutritional_info (some key) (some img) api goal = some (Json.str s)) ∧
    (∀ (key : String) (img : ℕ × ℕ) (api : ApiOutcome) (goal : String) (items : List Json),
      analyze_image_with_gemini_api api goal = Json.arr items → items ≠ [] →
      pyMemberOfList "Error:" items = false →
      get_nutritional_info (some key) (some img) api goal =
        (renderOutput unexpectedFailureReport goal).map Json.str) ∧
    (∀ (key : String) (img : ℕ × ℕ) (api : ApiOutcome) (goal : String)
      (fs : List (String × Json)),
      analyze_image_with_gemini_api api goal = Json.obj fs → fs ≠ [] →
      hasKey fs "Error:" = false →
      get_nutritional_info (some key) (some img) api goal =
        (renderOutput unexpectedFailureReport goal).map Json.str) ∧
    (∀ goal : String, (renderOutput unexpectedFailureReport goal).isSome = true) := by
  refine ⟨fun e goal => rfl, fun e goal => rfl, ?_, ?_, ?_, ?_, ?_, ?_, ?_⟩
  · intro v goal hne
    cases v with
    | obj fs => exact absurd rfl (hne fs)
    | null => rfl
    | bool b => rfl
    | num lex => rfl
    | str s => rfl
    | arr items => rfl
  · intro fs efs goal hc he hne
    have htr : pyTruthy (Json.obj efs) = true := by
      cases efs with
      | nil => exact absurd rfl hne
      | cons p rest => rfl
    simp [analyze_image_with_gemini_api, geminiExtract, geminiErrorBranch, hc, he, htr]
  · intro fs goal hc he
    simp [analyze_image_with_gemini_api, geminiExtract, geminiErrorBranch, hc, he]
  · intro key img api goal s hs hor
    obtain ⟨w, h⟩ := img
    simp only [get_nutritional_info, get_nutritional_info_body, process_image_for_analysis, hs]
    rcases hor with rfl | hcont
    · rfl
    · by_cases hse : s = ""
      · subst hse; rfl
      · have ht : pyTruthy (Json.str s) = true := by
          simp [pyTruthy, String.isEmpty_iff, hse]
        simp [ht, hcont]
  · intro key img api goal items hs hne hmem
    obtain ⟨w, h⟩ := img
    simp only [get_nutritional_info, get_nutritional_info_body, process_image_for_analysis, hs]
    have ht : pyTruthy (Json.arr items) = true := by
      simp [pyTruthy, List.isEmpty_iff, hne]
    simp [ht, hmem]
  · intro key img api goal fs hs hne hkey
    obtain ⟨w, h⟩ := img
    simp only [get_nutritional_info, get_nutritional_info_body, process_image_for_analysis, hs]
    have ht : pyTruthy (Json.obj fs) = true := by
      simp [pyTruthy, List.isEmpty_iff, hne]
    simp [ht, hkey]
  · intro goal
    exact renderOutput_total _ _
      ⟨⟨[], rfl⟩, ⟨[], rfl⟩, ⟨[], rfl⟩, ⟨[], rfl⟩,
       ⟨[("suggestions", Json.arr [Json.str "An unexpected error occurred during parsing."]),
         ("context", Json.str "")], rfl,
        [Json.str "An unexpected error occurred during parsing."], rfl⟩⟩

/-- Witness for C7 at concrete inputs: a network failure maps to its message,
a non-dict body and an error-object body map to their error strings, a reply
containing `"Error:"` is propagated verbatim by the pipeline, and a list
`text` reply without an `"Error:"` member makes the pipeline render the
fallback report rather than raise. -/
theorem C7_error_conversion_witness :
    analyze_image_with_gemini_api (ApiOutcome.networkError "boom") "Fat loss" =
      Json.str ("Network or request error during Gemini API call: " ++ "boom") ∧
    analyze_image_with_gemini_api (ApiOutcome.success (Json.arr [])) "Fat loss" =
      geminiCatchAll (pyTypeName (Json.arr [])) ∧
    analyze_image_with_gemini_api
      (ApiOutcome.success (Json.obj [("error", Json.obj [("message", Json.str "quota")])]))
      "Fat loss" =
      Json.str ("Gemini API Error: " ++
        pyStr (dictGet [("message", Json.str "quota")] "message" (Json.str "Unknown API error"))) ∧
    get_nutritional_info (some "key") (some (2, 2))
      (ApiOutcome.success (Json.obj [("error", Json.obj [("message", Json.str "quota")])]))
      "Fat loss" = some (Json.str "Gemini API Error: quota") ∧
    get_nutritional_info (some "key") (some (2, 2))
      (ApiOutcome.success (Json.obj [("candidates", Json.arr [Json.obj [("content",
        Json.obj [("parts", Json.arr [Json.obj [("text", Json.arr [Json.num "1"])]])])]])]))
      "Fat loss" = (renderOutput unexpectedFailureReport "Fat loss").map Json.str :=
  ⟨C7_error_conversion.1 "boom" "Fat loss",
   C7_error_conversion.2.2.1 (Json.arr []) "Fat loss" (fun fs h => nomatch h),
   C7_error_conversion.2.2.2.1 [("error", Json.obj [("message", Json.str "quota")])]
     [("message", Json.str "quota")] "Fat loss" rfl rfl (fun h => nomatch h),
   C7_error_conversion.2.2.2.2.2.1 "key" (2, 2)
     (ApiOutcome.success (Json.obj [("error", Json.obj [("message", Json.str "quota")])]))
     "Fat loss" "Gemini API Error: quota" rfl (Or.inr rfl),
   C7_error_conversion.2.2.2.2.2.2.1 "key" (2, 2)
     (ApiOutcome.success (Json.obj [("candidates", Json.arr [Json.obj [("content",
       Json.obj [("parts", Json.arr [Json.obj [("text", Json.arr [Json.num "1"])]])])]])]))
     "Fat loss" [Json.num "1"] rfl (fun h => nomatch h) rfl⟩

/-! ## Claim C1 -/

/-- Claim C1, counterexample: on a well-formed API reply whose JSON payload
has `identified_foods` bound to a number, `get_nutritional_info` raises
`TypeError` (`for food in 5`) instead of returning a string — modelled as a
`none` result of the pipeline. -/
theorem C1_render_nonlist_raises :
    get_nutritional_info (some "key") (some (2, 2))
      (ApiOutcome.success (Json.obj [("candidates", Json.arr [Json.obj [("content",
        Json.obj [("parts", Json.arr [Json.obj [("text",
          Json.str "\x7b\"identified_foods\": 5\x7d")]])])]])]))
      "Maintain weight" = none :=
  rfl

/-- Claim C1 as amended: the pipeline returns a value (a string) for every
key, image, goal and network outcome, provided the inference reply is falsy
or a string whose parsed report has the expected field shapes; replies whose
parsed fields have unexpected shapes can raise (see the counterexample). -/
theorem C1_total_on_expected_shapes (gemini_api_key : Option String)
    (image : Option (ℕ × ℕ)) (api : ApiOutcome) (user_goal : String)
    (hshape : ∀ s, analyze_image_with_gemini_api api user_goal = Json.str s →
      expectedShapes (parse_nutrition_response s))
    (hval : pyTruthy (analyze_image_with_gemini_api api user_goal) = false ∨
      ∃ s, analyze_image_with_gemini_api api user_goal = Json.str s) :
    (get_nutritional_info gemini_api_key image api user_goal).isSome = true := by
  cases gemini_api_key with
  | none => rfl
  | some key =>
    show (get_nutritional_info_body image api user_goal).isSome = true
    rw [get_nutritional_info_body]
    cases hpi : process_image_for_analysis image (800, 800) with
    | none => rfl
    | some dims =>
      rcases hval with hfalsy | ⟨s, hs⟩
      · simp [hfalsy]
      · rw [hs]
        by_cases hptr : pyTruthy (Json.str s) = false
        · simp [hptr]
        · simp only [hptr, Bool.false_eq_true, if_false]
          by_cases hcont : pyContainsStr s "Error:" = true
          · simp [hcont]
          · simp only [hcont, Bool.false_eq_true, if_false]
            simp [Option.isSome_map, renderOutput_total _ _ (hshape s hs)]

/-- Witness for C1 at a concrete outcome: a network failure reply parses to
the fallback report, whose shapes are the expected ones, and the pipeline
returns a string. -/
theorem C1_total_witness :
    (get_nutritional_info (some "key") (some (2, 2)) (ApiOutcome.networkError "boom")
      "Maintain weight").isSome = true := by
  apply C1_total_on_expected_shapes
  · intro s hs
    have h2 : analyze_image_with_gemini_api (ApiOutcome.networkError "boom") "Maintain weight" =
        Json.str "Network or request error during Gemini API call: boom" := rfl
    rw [h2] at hs
    injection hs with hss
    rw [← hss]
    rw [show parse_nutrition_response "Network or request error during Gemini API call: boom" =
      jsonFailureReport from rfl]
    exact ⟨⟨[], rfl⟩, ⟨[], rfl⟩, ⟨[], rfl⟩, ⟨[], rfl⟩,
      ⟨[("suggestions", Json.arr
          [Json.str "Could not parse response. Please try again or refine input."]),
        ("context", Json.str "")], rfl,
       [Json.str "Could not parse response. Please try again or refine input."], rfl⟩⟩
  · exact Or.inr ⟨_, rfl⟩

/-! ## Claim C8 -/

/-- The rounded dimension is at least 1. -/
theorem roundAspect_pos (q : ℚ) (key : ℤ → ℚ) : 1 ≤ roundAspect q key :=
  le_max_right _ _

/-- The rounded dimension respects an integer upper bound of the exact
value. -/
theorem roundAspect_le (q : ℚ) (key : ℤ → ℚ) (B : ℤ) (hB : 1 ≤ B) (hq : q ≤ (B : ℚ)) :
    roundAspect q key ≤ B := by
  unfold roundAspect
  have hc : ⌈q⌉ ≤ B := Int.ceil_le.mpr hq
  have hf : ⌊q⌋ ≤ B := le_trans (Int.floor_le_ceil q) hc
  refine max_le ?_ hB
  by_cases hk : key ⌊q⌋ ≤ key ⌈q⌉
  · rw [if_pos hk]; exact hf
  · rw [if_neg hk]; exact hc

/-- The rounded dimension is within one of the exact value (whichever of
floor and ceiling the key picks, and also after clamping to 1, since the
exact value is positive). -/
theorem roundAspect_close (q : ℚ) (key : ℤ → ℚ) (hq : 0 < q) :
    |((roundAspect q key : ℤ) : ℚ) - q| < 1 := by
  unfold roundAspect
  have hfle : (⌊q⌋ : ℚ) ≤ q := Int.floor_le q
  have hflt : q < (⌊q⌋ : ℚ) + 1 := Int.lt_floor_add_one q
  have hcge : q ≤ (⌈q⌉ : ℚ) := Int.le_ceil q
  have hclt : (⌈q⌉ : ℚ) < q + 1 := Int.ceil_lt_add_one q
  by_cases hk : key ⌊q⌋ ≤ key ⌈q⌉
  · rw [if_pos hk]
    rcases le_or_lt 1 ⌊q⌋ with h1 | h1
    · rw [max_eq_left h1, abs_lt]
      constructor <;> linarith
    · rw [max_eq_right h1.le, abs_lt]
      have hq1 : q < 1 := by
        have : ((⌊q⌋ : ℚ) + 1) ≤ 1 := by exact_mod_cast h1
        linarith
      constructor <;> push_cast <;> linarith
  · rw [if_neg hk]
    have h1 : 1 ≤ ⌈q⌉ := Int.ceil_pos.mpr hq
    rw [max_eq_left h1, abs_lt]
    constructor <;> linarith

/-- Claim C8: for every decodable image (positive dimensions),
`process_image_for_analysis` yields an encoded image whose dimensions are
positive, do not exceed the 800×800 bounding box, and preserve the aspect
ratio within rounding: either the image was already inside the box and is
untouched, or the fixed dimension is 800 and the scaled one differs from the
exact aspect-preserving value by less than one pixel. -/
theorem C8_thumbnail_bounds (w h : ℕ) (hw : 1 ≤ w) (hh : 1 ≤ h) :
    ∃ w2 h2, process_image_for_analysis (some (w, h)) (800, 800) = some (w2, h2) ∧
      w2 ≤ 800 ∧ h2 ≤ 800 ∧ 1 ≤ w2 ∧ 1 ≤ h2 ∧
      ((w2, h2) = ((w : ℤ), (h : ℤ)) ∨
        (h2 = 800 ∧ |(w2 : ℚ) - 800 * (w : ℚ) / (h : ℚ)| < 1) ∨
        (w2 = 800 ∧ |(h2 : ℚ) - 800 * (h : ℚ) / (w : ℚ)| < 1)) := by
  have hw0 : (0 : ℚ) < (w : ℚ) := by exact_mod_cast hw
  have hh0 : (0 : ℚ) < (h : ℚ) := by exact_mod_cast hh
  have haspect : 0 < (w : ℚ) / (h : ℚ) := div_pos hw0 hh0
  by_cases hsm : 800 ≥ w ∧ 800 ≥ h
  · refine ⟨(w : ℤ), (h : ℤ), ?_, ?_, ?_, ?_, ?_, Or.inl rfl⟩
    · show some (thumbnailDims w h 800 800) = _
      rw [thumbnailDims, if_pos hsm]
    · exact_mod_cast hsm.1
    · exact_mod_cast hsm.2
    · exact_mod_cast hw
    · exact_mod_cast hh
  · by_cases hbr : (800 : ℚ) / (800 : ℚ) ≥ (w : ℚ) / (h : ℚ)
    · -- flat image: height pinned to 800, width scaled
      have hq : (800 : ℚ) * ((w : ℚ) / (h : ℚ)) ≤ 800 := by
        have ha1 : (w : ℚ) / (h : ℚ) ≤ 1 := by
          have : (800 : ℚ) / 800 = 1 := by norm_num
          linarith [hbr, this.symm ▸ hbr]
        nlinarith
      have hq0 : 0 < (800 : ℚ) * ((w : ℚ) / (h : ℚ)) := by positivity
      refine ⟨roundAspect ((800 : ℚ) * ((w : ℚ) / (h : ℚ)))
          (fun n => |(w : ℚ) / (h : ℚ) - (n : ℚ) / (800 : ℚ)|), 800, ?_, ?_, ?_, ?_, ?_,
          Or.inr (Or.inl ⟨rfl, ?_⟩)⟩
      · show some (thumbnailDims w h 800 800) = _
        rw [thumbnailDims, if_neg hsm]
        simp only [Nat.cast_ofNat]
        rw [if_pos hbr]
      · exact roundAspect_le _ _ 800 (by norm_num) (by exact_mod_cast hq)
      · norm_num
      · exact roundAspect_pos _ _
      · norm_num
      · have hcl := roundAspect_close ((800 : ℚ) * ((w : ℚ) / (h : ℚ)))
          (fun n => |(w : ℚ) / (h : ℚ) - (n : ℚ) / (800 : ℚ)|) hq0
        rw [mul_div_assoc]
        exact hcl
    · -- tall image: width pinned to 800, height scaled
      have ha1 : 1 < (w : ℚ) / (h : ℚ) := by
        push_neg at hbr
        have : (800 : ℚ) / 800 = 1 := by norm_num
        linarith [this ▸ hbr]
      have hinv : (800 : ℚ) / ((w : ℚ) / (h : ℚ)) = 800 * (h : ℚ) / (w : ℚ) :=
        div_div_eq_mul_div 800 (w : ℚ) (h : ℚ)
      have hq : (800 : ℚ) / ((w : ℚ) / (h : ℚ)) ≤ 800 :=
        div_le_self (by norm_num) ha1.le
      have hq0 : 0 < (800 : ℚ) / ((w : ℚ) / (h : ℚ)) := by positivity
      refine ⟨800, roundAspect ((800 : ℚ) / ((w : ℚ) / (h : ℚ)))
          (fun n => if n = 0 then 0 else |(w : ℚ) / (h : ℚ) - (800 : ℚ) / (n : ℚ)|),
          ?_, ?_, ?_, ?_, ?_, Or.inr (Or.inr ⟨rfl, ?_⟩)⟩
      · show some (thumbnailDims w h 800 800) = _
        rw [thumbnailDims, if_neg hsm]
        simp only [Nat.cast_ofNat]
        rw [if_neg hbr]
      · norm_num
      · exact roundAspect_le _ _ 800 (by norm_num) (by exact_mod_cast hq)
      · norm_num
      · exact roundAspect_pos _ _
      · have hcl := roundAspect_close ((800 : ℚ) / ((w : ℚ) / (h : ℚ)))
          (fun n => if n = 0 then 0 else |(w : ℚ) / (h : ℚ) - (800 : ℚ) / (n : ℚ)|) hq0
        rw [← hinv]
        exact hcl

/-- Witness for C8 at a 1000×500 image. -/
theorem C8_thumbnail_bounds_witness :
    1 ≤ (1000 : ℕ) ∧ 1 ≤ (500 : ℕ) ∧
    ∃ w2 h2, process_image_for_analysis (some (1000, 500)) (800, 800) = some (w2, h2) ∧
      w2 ≤ 800 ∧ h2 ≤ 800 ∧ 1 ≤ w2 ∧ 1 ≤ h2 ∧
      ((w2, h2) = (((1000 : ℕ) : ℤ), ((500 : ℕ) : ℤ)) ∨
        (h2 = 800 ∧ |(w2 : ℚ) - 800 * ((1000 : ℕ) : ℚ) / ((500 : ℕ) : ℚ)| < 1) ∨
        (w2 = 800 ∧ |(h2 : ℚ) - 800 * ((500 : ℕ) : ℚ) / ((1000 : ℕ) : ℚ)| < 1)) :=
  ⟨by norm_num, by norm_num, C8_thumbnail_bounds 1000 500 (by norm_num) (by norm_num)⟩

/-! ## Claim C4 -/

/-- Prefixing both sides of a prefix keeps it a prefix. -/
theorem prefix_append_mono {a b c : List Char} (h : a <+: b) : c ++ a <+: c ++ b := by
  obtain ⟨w, hw⟩ := h
  exact ⟨w, by rw [List.append_assoc, hw]⟩

/-- Appending a closing fence after the scanned text commutes with removing
all `"```json"` markers: no marker occurrence can straddle the boundary. -/
theorem pyReplaceAux_fenceJson_append :
    ∀ (f : Nat) (s : List Char), s.length + 3 ≤ f →
      pyReplaceAux "```json".data [] f (s ++ "```".data) =
        pyReplaceAux "```json".data [] f s ++ "```".data := by
  intro f
  induction f with
  | zero => intro s h; exact absurd h (by omega)
  | succ f ih =>
    intro s hlen
    by_cases hp : "```json".data <+: s ++ "```".data
    · have h7 : 7 ≤ s.length := by
        by_contra hc
        push_neg at hc
        exact no_fenceJson_span s hc hp
      have hps : "```json".data <+: s :=
        prefix_of_append_left hp (by rw [show ("```json".data).length = 7 from rfl]; omega)
      rw [pyReplaceAux_succ, if_pos ⟨by decide, hp⟩, pyReplaceAux_succ, if_pos ⟨by decide, hps⟩,
        List.nil_append, List.nil_append,
        List.drop_append_of_le_length (by rw [show ("```json".data).length = 7 from rfl]; omega)]
      exact ih (s.drop ("```json".data).length)
        (by rw [List.length_drop, show ("```json".data).length = 7 from rfl]; omega)
    · have hps : ¬ "```json".data <+: s := fun hq => hp (hq.trans (List.prefix_append s _))
      cases s with
      | nil =>
        rw [List.nil_append, pyReplaceAux_nil, List.nil_append]
        exact pyReplaceAux_short "```json".data [] (f+1) "```".data (by decide)
      | cons c rest =>
        rw [List.cons_append, pyReplaceAux_succ, pyReplaceAux_succ,
          if_neg (fun hc => hp hc.2), if_neg (fun hc => hps hc.2)]
        show c :: pyReplaceAux "```json".data [] f (rest ++ "```".data) =
          (c :: pyReplaceAux "```json".data [] f rest) ++ "```".data
        rw [List.cons_append]
        exact congrArg (c :: ·) (ih rest (by simp only [List.length_cons] at hlen; omega))

/-- Removing all `"```"` markers absorbs an appended closing fence: the
appended backticks extend the final run of backticks by three, which the
scan removes without disturbing what it keeps. -/
theorem pyReplaceAux_fence3_absorb :
    ∀ (f : Nat) (s : List Char), s.length + 3 ≤ f →
      pyReplaceAux "```".data [] f (s ++ "```".data) = pyReplaceAux "```".data [] f s := by
  intro f
  induction f with
  | zero => intro s h; exact absurd h (by omega)
  | succ f ih =>
    intro s hlen
    by_cases hps : "```".data <+: s
    · have h3 : 3 ≤ s.length := by
        have := hps.length_le
        rw [show ("```".data).length = 3 from rfl] at this
        exact this
      have hp : "```".data <+: s ++ "```".data := hps.trans (List.prefix_append s _)
      rw [pyReplaceAux_succ, if_pos ⟨by decide, hp⟩, pyReplaceAux_succ, if_pos ⟨by decide, hps⟩,
        List.nil_append, List.nil_append,
        List.drop_append_of_le_length (by rw [show ("```".data).length = 3 from rfl]; omega)]
      exact ih (s.drop ("```".data).length)
        (by rw [List.length_drop, show ("```".data).length = 3 from rfl]; omega)
    · by_cases hp : "```".data <+: s ++ "```".data
      · have hslt : s.length < 3 := by
          by_contra hc
          push_neg at hc
          exact hps (prefix_of_append_left hp
            (by rw [show ("```".data).length = 3 from rfl]; omega))
        have hs_take : s = ("```".data).take s.length := by
          obtain ⟨r, hr⟩ := hp
          have h1 : (s ++ "```".data).take s.length = s := by
            rw [List.take_append_of_le_length (le_refl _), List.take_length]
          have h2 : (s ++ "```".data).take s.length = ("```".data).take s.length := by
            rw [← hr, List.take_append_of_le_length
              (by rw [show ("```".data).length = 3 from rfl]; omega)]
          exact h1.symm.trans h2
        cases s with
        | nil =>
          rw [List.nil_append, pyReplaceAux_nil, pyReplaceAux_succ,
            if_pos ⟨by decide, List.prefix_refl _⟩, List.nil_append,
            show List.drop (("```".data).length) "```".data = ([] : List Char) from rfl,
            pyReplaceAux_nil]
        | cons a s1 =>
          cases s1 with
          | nil =>
            have ha : a = btChar := by
              rw [show ([a] : List Char).length = 1 from rfl] at hs_take
              rw [show ("```".data).take 1 = [btChar] from by decide] at hs_take
              simpa using hs_take
            subst ha
            rw [show ([btChar] ++ "```".data : List Char) = btChar :: "```".data from rfl,
              pyReplaceAux_succ, if_pos ⟨by decide, by decide⟩, List.nil_append,
              show List.drop (("```".data).length) (btChar :: "```".data) = [btChar]
                from by decide,
              pyReplaceAux_short "```".data [] f [btChar] (by decide),
              pyReplaceAux_short "```".data [] (f+1) [btChar] (by decide)]
          | cons b s2 =>
            cases s2 with
            | nil =>
              have hab : a = btChar ∧ b = btChar := by
                rw [show ([a, b] : List Char).length = 2 from rfl] at hs_take
                rw [show ("```".data).take 2 = [btChar, btChar] from by decide] at hs_take
                simpa using hs_take
              obtain ⟨rfl, rfl⟩ := hab
              rw [show ([btChar, btChar] ++ "```".data : List Char) =
                  btChar :: btChar :: "```".data from rfl,
                pyReplaceAux_succ, if_pos ⟨by decide, by decide⟩, List.nil_append,
                show List.drop (("```".data).length) (btChar :: btChar :: "```".data) =
                  [btChar, btChar] from by decide,
                pyReplaceAux_short "```".data [] f [btChar, btChar] (by decide),
                pyReplaceAux_short "```".data [] (f+1) [btChar, btChar] (by decide)]
            | cons d s3 => exact absurd hslt (by simp only [List.length_cons]; omega)
      · cases s with
        | nil =>
          refine absurd ?_ hp
          rw [List.nil_append]
        | cons c rest =>
          rw [List.cons_append, pyReplaceAux_succ, pyReplaceAux_succ,
            if_neg (fun hc => hp hc.2), if_neg (fun hc => hps hc.2)]
          show c :: pyReplaceAux "```".data [] f (rest ++ "```".data) =
            c :: pyReplaceAux "```".data [] f rest
          exact congrArg (c :: ·)
            (ih rest (by simp only [List.length_cons] at hlen; omega))

/-- The cleaning line is blind to a surrounding code fence: cleaning
`"```json" ++ u ++ "```"` gives exactly the cleaning of `u`. -/
theorem pyCleanResponse_wrap (u : List Char) :
    pyCleanResponse (("```json".data ++ u) ++ "```".data) = pyCleanResponse u := by
  unfold pyCleanResponse pyReplace
  have hlw : (("```json".data ++ u) ++ "```".data).length = u.length + 10 := by
    simp only [List.length_append]
    rw [show ("```json".data).length = 7 from rfl, show ("```".data).length = 3 from rfl]
    omega
  rw [hlw]
  have e1 : pyReplaceAux "```json".data [] (u.length + 10) (("```json".data ++ u) ++ "```".data)
      = pyReplaceAux "```json".data [] (u.length + 9) (u ++ "```".data) := by
    rw [List.append_assoc, show u.length + 10 = (u.length + 9) + 1 from rfl,
      pyReplaceAux_succ, if_pos ⟨by decide, List.prefix_append _ _⟩, List.nil_append,
      List.drop_left]
  have e2 := pyReplaceAux_fenceJson_append (u.length + 9) u (by omega)
  have e3 : pyReplaceAux "```json".data [] (u.length + 9) u
      = pyReplaceAux "```json".data [] u.length u :=
    pyReplaceAux_fuel _ _ _ _ u (by omega) (le_refl _)
  rw [e1, e2, e3]
  have hl2 : (pyReplaceAux "```json".data [] u.length u ++ "```".data).length
      = (pyReplaceAux "```json".data [] u.length u).length + 3 := by
    simp only [List.length_append]
    rw [show ("```".data).length = 3 from rfl]
  rw [hl2]
  rw [pyReplaceAux_fence3_absorb
    ((pyReplaceAux "```json".data [] u.length u).length + 3)
    (pyReplaceAux "```json".data [] u.length u) (le_refl _)]
  rw [pyReplaceAux_fuel "```".data [] _ (pyReplaceAux "```json".data [] u.length u).length
    (pyReplaceAux "```json".data [] u.length u) (by omega) (le_refl _)]

/-- Claim C4: wrapping any text in the markdown code-fence markers that
`parse_nutrition_response` strips changes nothing about the parsed report. -/
theorem C4_codefence_wrapping_invariant (t : String) :
    parse_nutrition_response ("```json" ++ t ++ "```") = parse_nutrition_response t := by
  unfold parse_nutrition_response
  rw [String.data_append, String.data_append, pyCleanResponse_wrap]

/-! ## Claim C10 -/

/-- If the output of the `"```"` removal starts with a run of backticks, so
did its input: removal deletes whole runs of three and keeps shorter run
tails whose characters come from the input's own backticks. -/
theorem pyReplaceAux_backtick_run :
    ∀ (f : Nat) (s : List Char) (n : Nat),
      List.replicate n btChar <+: pyReplaceAux "```".data [] f s →
      List.replicate n btChar <+: s := by
  intro f
  induction f with
  | zero => intro s n h; exact h
  | succ f ih =>
    intro s n h
    by_cases hp : "```".data <+: s
    · rw [pyReplaceAux_succ, if_pos ⟨by decide, hp⟩, List.nil_append] at h
      have h2 := ih _ _ h
      obtain ⟨r, hr⟩ := hp
      have hrd : s.drop (("```".data).length) = r := by rw [← hr, List.drop_left]
      rw [hrd] at h2
      rw [← hr]
      have hf3 : "```".data = List.replicate 3 btChar := by decide
      rcases le_or_lt n 3 with h3 | h3
      · have hpre : List.replicate n btChar <+: "```".data := by
          rw [hf3]
          exact ⟨List.replicate (3 - n) btChar, by rw [← List.replicate_add]; congr 1; omega⟩
        exact hpre.trans (List.prefix_append _ _)
      · have hsplit : List.replicate n btChar =
            "```".data ++ List.replicate (n - 3) btChar := by
          rw [hf3, ← List.replicate_add]
          congr 1
          omega
        have hsub : List.replicate (n - 3) btChar <+: List.replicate n btChar :=
          ⟨List.replicate 3 btChar, by rw [← List.replicate_add]; congr 1; omega⟩
        have hmid : List.replicate (n - 3) btChar <+: r := hsub.trans h2
        rw [hsplit]
        exact prefix_append_mono hmid
    · rw [pyReplaceAux_succ, if_neg (fun hc => hp hc.2)] at h
      cases s with
      | nil =>
        have hrep := List.prefix_nil.mp h
        rw [hrep]
      | cons c rest =>
        replace h : List.replicate n btChar <+: c :: pyReplaceAux "```".data [] f rest := h
        cases n with
        | zero => exact List.nil_prefix
        | succ m =>
          rw [List.replicate_succ] at h ⊢
          rw [List.cons_prefix_cons] at h ⊢
          exact ⟨h.1, ih _ _ h.2⟩

/-- After removing all `"```"` markers (with enough fuel) no three
consecutive backticks remain anywhere in the string. -/
theorem pyReplaceAux_fence3_no_fence :
    ∀ (f : Nat) (s : List Char), s.length ≤ f →
      ¬ ("```".data <:+: pyReplaceAux "```".data [] f s) := by
  intro f
  induction f with
  | zero =>
    intro s hl h
    have hs : s = [] := List.length_eq_zero.mp (by omega)
    subst hs
    exact absurd (List.infix_nil.mp h) (by decide)
  | succ f ih =>
    intro s hl h
    by_cases hp : "```".data <+: s
    · rw [pyReplaceAux_succ, if_pos ⟨by decide, hp⟩, List.nil_append] at h
      have h3 : 3 ≤ s.length := by
        have := hp.length_le
        rw [show ("```".data).length = 3 from rfl] at this
        exact this
      exact ih _ (by rw [List.length_drop, show ("```".data).length = 3 from rfl]; omega) h
    · rw [pyReplaceAux_succ, if_neg (fun hc => hp hc.2)] at h
      cases s with
      | nil => exact absurd (List.infix_nil.mp h) (by decide)
      | cons c rest =>
        replace h : "```".data <:+: c :: pyReplaceAux "```".data [] f rest := h
        rw [List.infix_cons_iff] at h
        rcases h with h | h
        · rw [show "```".data = btChar :: List.replicate 2 btChar from by decide,
            List.cons_prefix_cons] at h
          have h2 := pyReplaceAux_backtick_run f rest 2 h.2
          apply hp
          rw [show "```".data = btChar :: List.replicate 2 btChar from by decide,
            List.cons_prefix_cons]
          exact ⟨h.1, h2⟩
        · exact ih _ (by simp only [List.length_cons] at hl; omega) h

/-- The substring test agrees with the infix relation. -/
theorem pyContainsAux_eq_true_iff (pat : List Char) :
    ∀ s : List Char, pyContainsAux pat s = true ↔ pat <:+: s := by
  intro s
  induction s with
  | nil => simp [pyContainsAux, List.isEmpty_iff, List.infix_nil]
  | cons c rest ih =>
    simp only [pyContainsAux, Bool.or_eq_true, List.isPrefixOf_iff_prefix, ih,
      List.infix_cons_iff]

/-- Claim C10 as amended: the cleaning line deletes every occurrence of the
fence markers anywhere in the raw text — the cleaned text handed to
`json.loads` never contains `"```"` nor `"```json"` as a substring.  (The
claimed consequence for decoded string values fails: see the
counterexample, where a ``` escape rebuilds a fence inside a value.) -/
theorem C10_cleaned_text_fence_free (t : String) :
    pyContainsAux "```".data (pyCleanResponse t.data) = false ∧
    pyContainsAux "```json".data (pyCleanResponse t.data) = false := by
  have hinf : ¬ ("```".data <:+: pyCleanResponse t.data) := by
    intro hcontra
    have hstrip : pyCleanResponse t.data <:+:
        pyReplace "```".data [] (pyReplace "```json".data [] t.data) := by
      unfold pyCleanResponse pyStrip
      exact (List.rdropWhile_prefix _ _).isInfix.trans (List.dropWhile_suffix _).isInfix
    exact absurd (hcontra.trans hstrip)
      (pyReplaceAux_fence3_no_fence _ _ (le_refl _))
  constructor
  · cases hb : pyContainsAux "```".data (pyCleanResponse t.data) with
    | false => rfl
    | true => exact absurd ((pyContainsAux_eq_true_iff _ _).mp hb) hinf
  · cases hb : pyContainsAux "```json".data (pyCleanResponse t.data) with
    | false => rfl
    | true =>
      have h7 := (pyContainsAux_eq_true_iff _ _).mp hb
      exact absurd (((show "```".data <+: "```json".data by decide).isInfix).trans h7) hinf

/-- Claim C10, counterexample to the claimed consequence: a JSON payload with
no literal backtick (so cleaning deletes nothing) can decode ``` escapes
into a string value that does contain the code-fence marker. -/
theorem C10_fence_in_decoded_value :
    (parse_nutrition_response
        "\x7b\"identified_foods\": [\"\\u0060\\u0060\\u0060json\"]\x7d").food_items =
      Json.arr [Json.str "```json"] ∧
    pyContainsStr "```json" "```" = true :=
  ⟨rfl, rfl⟩
